import Mathlib

/-!
Verification of the playtime accounting engine of the go-discord bot.

The Go source consists of two files: `gametime.go` (the `TimeCounter` /
`PlayingUser` ledger built on a bolt key-value store) and `main.go` (an
in-memory `playedTime` variant updated by `countPlaytime`).

This file gives a shallow embedding of that code:

* the varint value encoding (`encoding/binary`'s `PutVarint` / `Varint`,
  as used by `SaveGametime` and `GetUserGametime`) over `Nat` / `Int`,
  with `% 2 ^ 64` wherever Go's `uint64` arithmetic wraps;
* the bolt store as a function map `userID ↦ (gameID ↦ stored bytes)`;
* the `TimeCounter` session tracker with its `InProgress` map as an
  association list (Go map semantics: insert replaces, range yields value
  copies);
* `time.Time` / `time.Duration` values as mathematical integers counting
  nanoseconds, with each operation taking the current instant `now` as an
  explicit parameter.
-/

namespace GoDiscord

/-- `binary.MaxVarintLen64`: the size of the byte buffer `SaveGametime`
allocates for an encoded value. -/
def MaxVarintLen64 : Nat := 10

/-- Loop of `binary.PutUvarint`: emit the low 7 bits with the continuation
bit (`byte(x) | 0x80`) while `x >= 0x80`, then the final byte.  The fuel
argument bounds the number of emitted bytes; `MaxVarintLen64` fuel is exact
for every `uint64` argument (`x < 2 ^ 64` needs at most 10 base-128 digits),
which is the only range Go's `uint64` parameter admits. -/
def putUvarintAux : Nat → Nat → List Nat
  | 0, x => [x]
  | fuel + 1, x => if x < 0x80 then [x] else (x % 256 ||| 0x80) :: putUvarintAux fuel (x / 0x80)

/-- Bytes written by `binary.PutUvarint buf x` for a `uint64` argument. -/
def putUvarintBytes (x : Nat) : List Nat :=
  putUvarintAux MaxVarintLen64 x

/-- Loop of `binary.Uvarint`: `i` is the byte index, `s` the shift, `x` the
`uint64` accumulator (`x |= uint64(b&0x7f) << s`, wrapping mod `2 ^ 64`).
A terminator byte at index `i > 9`, or at `i = 9` with `b > 1`, is an
overflow (`n = -(i+1)`); running out of buffer returns `(0, 0)`. -/
def uvarintAux : List Nat → Nat → Nat → Nat → Nat × Int
  | [], _, _, _ => (0, 0)
  | b :: rest, i, s, x =>
    if b < 0x80 then
      if 9 < i ∨ (i = 9 ∧ 1 < b) then (0, -(i + 1 : Int))
      else ((x ||| b <<< s) % 2 ^ 64, (i + 1 : Int))
    else uvarintAux rest (i + 1) (s + 7) ((x ||| (b &&& 0x7f) <<< s) % 2 ^ 64)

/-- `binary.Uvarint buf`: returns the decoded `uint64` and the number of
bytes read (`n <= 0` signals a decode failure). -/
def uvarint (buf : List Nat) : Nat × Int :=
  uvarintAux buf 0 0 0

/-- `binary.Varint buf`: zigzag-decode the result of `Uvarint`
(`x := int64(ux >> 1); if ux&1 != 0 { x = ^x }`). -/
def varint (buf : List Nat) : Int × Int :=
  let ux := (uvarint buf).1
  (if ux % 2 = 1 then -((ux / 2 : Nat) : Int) - 1 else ((ux / 2 : Nat) : Int), (uvarint buf).2)

/-- Go's `uint64(x)` conversion of an `int64` value: two's complement,
i.e. the representative of `x` modulo `2 ^ 64`. -/
def toUInt64 (x : Int) : Nat := (x % (2 ^ 64 : Int)).toNat

/-- The `uint64` that `binary.PutVarint` encodes for `x`:
`ux := uint64(x) << 1; if x < 0 { ux = ^ux }`. -/
def putVarintUx (x : Int) : Nat :=
  if x < 0 then 2 ^ 64 - 1 - 2 * toUInt64 x % 2 ^ 64 else 2 * toUInt64 x % 2 ^ 64

/-- The stored value produced by the merge write path: `SaveGametime`
allocates a zero-filled `MaxVarintLen64`-byte buffer
(`newPlayed := make([]byte, binary.MaxVarintLen64)`), fills its prefix with
`binary.PutVarint`, and stores the whole buffer. -/
def putVarintBytes (x : Int) : List Nat :=
  putUvarintBytes (putVarintUx x) ++
    List.replicate (MaxVarintLen64 - (putUvarintBytes (putVarintUx x)).length) 0

/-- A bolt bucket: one ledger namespace, mapping a game ID to the stored
byte value. -/
def Bucket : Type := String → Option (List Nat)

/-- The bolt database: one bucket (namespace) per user ID. -/
def DB : Type := String → Option Bucket

/-- `t.CreateBucketIfNotExists([]byte(name))`: the bucket for `name`,
freshly empty when the namespace does not exist yet. -/
def createBucketIfNotExists (db : DB) (name : String) : Bucket :=
  (db name).getD (fun _ => none)

/-- `b.Put(key, v)` on a bucket: replace (or create) the entry for `key`. -/
def bucketPut (b : Bucket) (key : String) (v : List Nat) : Bucket :=
  fun g => if g = key then some v else b g

/-- Writing a bucket back into the database under `name` (the effect of
mutating a bucket inside a bolt write transaction). -/
def dbSetBucket (db : DB) (name : String) (b : Bucket) : DB :=
  fun u => if u = name then some b else db u

/-- `PlayingUser`: one live session (`gametime.go`). -/
structure PlayingUser where
  UserID : String
  StartTime : Int
  GameID : String
deriving DecidableEq

/-- `PlayingUser.SaveGametime` (`gametime.go` lines 24-56), the ledger merge.
`now` stands for the instant of this merge (the code's `time.Now()` calls,
including `time.Since`).  With a stored entry: `played, _ := binary.Varint`
(the error indicator is discarded), `total := time.Now().Add(played)`, and
`total.Sub(p.StartTime).Nanoseconds()` is re-encoded and written; without
one, `time.Since(p.StartTime).Nanoseconds()` is written.  Finally
`p.StartTime = time.Now()` updates the receiver copy, returned here as the
second component. -/
def SaveGametime (now : Int) (p : PlayingUser) (db : DB) : DB × PlayingUser :=
  let b := createBucketIfNotExists db p.UserID
  match b p.GameID with
  | some bPlayed =>
    let played := (varint bPlayed).1
    let total := now + played
    let newPlayed := putVarintBytes (total - p.StartTime)
    (dbSetBucket db p.UserID (bucketPut b p.GameID newPlayed), { p with StartTime := now })
  | none =>
    let newPlayed := putVarintBytes (now - p.StartTime)
    (dbSetBucket db p.UserID (bucketPut b p.GameID newPlayed), { p with StartTime := now })

/-- The `TimeCounter` state: the `InProgress` Go map as an association
list (userID ↦ live session) plus the bolt handle's current contents. -/
structure TimeCounter where
  InProgress : List (String × PlayingUser)
  GametimeDB : DB

/-- Go map lookup `m[k]` on the association-list model. -/
def mapLookup : List (String × PlayingUser) → String → Option PlayingUser
  | [], _ => none
  | (k, v) :: rest, u => if k = u then some v else mapLookup rest u

/-- Go map assignment `m[k] = v`: replaces the binding when present,
otherwise adds it. -/
def mapInsert : List (String × PlayingUser) → String → PlayingUser → List (String × PlayingUser)
  | [], k, v => [(k, v)]
  | (k', v') :: rest, k, v =>
    if k' = k then (k, v) :: rest else (k', v') :: mapInsert rest k v

/-- Go map `delete(m, k)`. -/
def mapDelete : List (String × PlayingUser) → String → List (String × PlayingUser)
  | [], _ => []
  | (k', v') :: rest, k => if k' = k then rest else (k', v') :: mapDelete rest k

/-- `TimeCounter.StartGametime` (`gametime.go` lines 86-96): unconditionally
stores a fresh session with `StartTime: time.Now()` in `InProgress`,
overwriting any live session for the same user; the database is not
touched. -/
def StartGametime (now : Int) (userID gameID : String) (c : TimeCounter) : TimeCounter :=
  { c with InProgress := mapInsert c.InProgress userID ⟨userID, now, gameID⟩ }

/-- `TimeCounter.EndGametime` (`gametime.go` lines 98-113): delete the user
from `InProgress`, then merge via `SaveGametime` inside one
`GametimeDB.Update` transaction.  `pUser` is the session value received
over `GametimeChan`; the `StartTime` reset inside `SaveGametime` lands on
this local copy and is discarded. -/
def EndGametime (now : Int) (pUser : PlayingUser) (c : TimeCounter) : TimeCounter :=
  { InProgress := mapDelete c.InProgress pUser.UserID
    GametimeDB := (SaveGametime now pUser c.GametimeDB).1 }

/-- The end-of-session request path (`Listen` dequeues a `PlayingUser` from
`GametimeChan` and spawns `EndGametime` on it): the only live copy of the
session is the `InProgress` entry, so that is what gets sent and merged. -/
def requestEnd (now : Int) (userID : String) (c : TimeCounter) : TimeCounter :=
  match mapLookup c.InProgress userID with
  | some pUser => EndGametime now pUser c
  | none => c

/-- `TimeCounter.Snapshot` (`gametime.go` lines 132-144): one write
transaction that runs `SaveGametime` for every live session.  Go's
`for _, pUser := range counter.InProgress` yields a copy of each map value,
so the `p.StartTime = time.Now()` reset inside `SaveGametime` mutates only
that copy: the updated `PlayingUser` (second component) is discarded and
`InProgress` itself is left unchanged. -/
def Snapshot (now : Int) (c : TimeCounter) : TimeCounter :=
  { c with
    GametimeDB := c.InProgress.foldl (fun db kp => (SaveGametime now kp.2 db).1) c.GametimeDB }

/-- `TimeCounter.GetUserGametime` (`gametime.go` lines 115-130): inside a
read-only `View` transaction, a missing bucket yields
`errors.New("user never played")`; otherwise every `(gameID, nanoTime)`
pair is decoded with `binary.Varint` (error indicator discarded) into the
result map. -/
def GetUserGametime (db : DB) (userID : String) : Except String (String → Option Int) :=
  match db userID with
  | none => .error "user never played"
  | some b => .ok (fun gameID => (b gameID).map (fun nanoTime => (varint nanoTime).1))

/-- The entry stored for `(u, g)`, if any. -/
def getEntry (db : DB) (u g : String) : Option (List Nat) :=
  match db u with
  | none => none
  | some b => b g

/-- The current total that `SaveGametime` works from for `(u, g)`: the
`binary.Varint` decode of the stored entry when present (0 on a failed
decode, since the error indicator is discarded), and 0 when absent. -/
def storedValue (db : DB) (u g : String) : Int :=
  match getEntry db u g with
  | some bytes => (varint bytes).1
  | none => 0

/-- Store-level fault injection for one merge transaction: bolt's
`CreateBucketIfNotExists` and `Put` can fail (I/O error, invalid key, ...). -/
structure TxFaults where
  createBucketErr : Option String
  putErr : Option String
deriving DecidableEq

/-- `PlayingUser.SaveGametime` with bolt's fallible steps made explicit:
each `if err != nil { return err }` of the Go code propagates the injected
fault.  Note that the `binary.Varint` decode step has no error path here,
exactly as in the source (`played, _ := binary.Varint(bPlayed)`). -/
def SaveGametimeTx (f : TxFaults) (now : Int) (p : PlayingUser) (db : DB) :
    Except String (DB × PlayingUser) :=
  match f.createBucketErr with
  | some e => .error e
  | none =>
    let b := createBucketIfNotExists db p.UserID
    match b p.GameID with
    | some bPlayed =>
      let played := (varint bPlayed).1
      let total := now + played
      let newPlayed := putVarintBytes (total - p.StartTime)
      match f.putErr with
      | some e => .error e
      | none => .ok (dbSetBucket db p.UserID (bucketPut b p.GameID newPlayed),
                     { p with StartTime := now })
    | none =>
      let newPlayed := putVarintBytes (now - p.StartTime)
      match f.putErr with
      | some e => .error e
      | none => .ok (dbSetBucket db p.UserID (bucketPut b p.GameID newPlayed),
                     { p with StartTime := now })

/-- `counter.GametimeDB.Update(func(t *bolt.Tx) error { return
pUser.SaveGametime(t) })` (the merge transaction of `EndGametime`): bolt
commits the mutated store on `nil` and rolls every mutation back on a
non-`nil` error, which is returned to the caller. -/
def updateSaveGametime (f : TxFaults) (now : Int) (p : PlayingUser) (db : DB) :
    DB × Option String :=
  match SaveGametimeTx f now p db with
  | .ok (db2, _) => (db2, none)
  | .error e => (db, some e)

/-- The in-memory `playedTime` update at the end of `countPlaytime`
(`main.go` lines 140-148), after the end signal arrives: `endNow` is that
instant, `start` the `time.Now()` taken at line 128.  `playedTime[user][game]`
is modelled as a curried function map (the outer entry is ensured at lines
129-132). -/
def countPlaytimeUpdate (endNow start : Int) (userID strGameID : String)
    (pt : String → String → Option Int) : String → String → Option Int :=
  match pt userID strGameID with
  | some played =>
    let total := endNow + played
    fun u g => if u = userID ∧ g = strGameID then some (total - start) else pt u g
  | none =>
    fun u g => if u = userID ∧ g = strGameID then some (endNow - start) else pt u g

/-- A stored value that is not a valid varint: `MaxVarintLen64` continuation
bytes, on which `binary.Varint` reports failure (`n = 0`) and returns 0. -/
def corruptStored : List Nat := List.replicate MaxVarintLen64 0x80

/-- A database holding the corrupt entry for user "alice", game "g1". -/
def corruptDB : DB :=
  fun u => if u = "alice" then
    some (fun g => if g = "g1" then some corruptStored else none) else none

/-- One of the merge steps named by the spec fails: namespace creation
fails, the write fails, or the decode of the stored value fails
(`binary.Varint` returns `n <= 0`). -/
def mergeStepFails (f : TxFaults) (p : PlayingUser) (db : DB) : Prop :=
  f.createBucketErr ≠ none ∨ f.putErr ≠ none ∨
    ∃ bytes, getEntry db p.UserID p.GameID = some bytes ∧ (varint bytes).2 ≤ 0

/-! ### Properties of the varint encoding -/


theorem lor_shift_add {a b s : Nat} (h : a < 2 ^ s) : a ||| b <<< s = b * 2 ^ s + a := by
  calc a ||| b <<< s = a ||| b * 2 ^ s := by rw [Nat.shiftLeft_eq]
    _ = b * 2 ^ s ||| a := Nat.lor_comm _ _
    _ = 2 ^ s * b ||| a := by rw [Nat.mul_comm]
    _ = 2 ^ s * b + a := (Nat.mul_add_lt_is_or h b).symm
    _ = b * 2 ^ s + a := by rw [Nat.mul_comm]

theorem lor128_eq {a : Nat} (h : a < 128) : a ||| 128 = a + 128 := by
  show a ||| 1 <<< 7 = a + 128
  rw [lor_shift_add (show a < 2 ^ 7 by omega)]
  omega

theorem byte_lor_eq (x : Nat) : x % 256 ||| 128 = x % 128 + 128 := by
  have hmm : x % 256 % 128 = x % 128 := Nat.mod_mod_of_dvd x (by omega)
  have h256 : x % 256 < 256 := Nat.mod_lt _ (by omega)
  rcases Nat.lt_or_ge (x % 256) 128 with hd | hd
  · rw [lor128_eq hd]
    omega
  · have hr : x % 256 = x % 128 + 128 := by omega
    rw [hr, ← lor128_eq (show x % 128 < 128 by omega), Nat.lor_assoc]
    rw [show (128 : Nat) ||| 128 = 128 by decide]

theorem byte_and_eq (x : Nat) : (x % 128 + 128) &&& 0x7f = x % 128 := by
  have h := Nat.and_pow_two_sub_one_eq_mod (x % 128 + 128) 7
  norm_num at h
  omega



theorem uvarintAux_last (x i acc : Nat) (pad : List Nat) (hi : i ≤ 9) (hx : x < 128)
    (hacc : acc < 2 ^ (7 * i)) (hb : acc + x * 2 ^ (7 * i) < 2 ^ 64) :
    uvarintAux (x :: pad) i (7 * i) acc = (acc + x * 2 ^ (7 * i), (i + 1 : Int)) := by
  have hcond : ¬(9 < i ∨ (i = 9 ∧ 1 < x)) := by
    rintro (h9 | ⟨h9, hx1⟩)
    · omega
    · subst h9
      have h63 : (2 : Nat) ^ (7 * 9) = 9223372036854775808 := by norm_num
      have h64 : (2 : Nat) ^ 64 = 18446744073709551616 := by norm_num
      omega
  simp only [uvarintAux]
  rw [if_pos hx, if_neg hcond, lor_shift_add hacc, Nat.mod_eq_of_lt (by omega),
    Nat.add_comm (x * 2 ^ (7 * i)) acc]

theorem uvarintAux_putUvarintAux : ∀ (fuel x i acc : Nat) (pad : List Nat),
    i ≤ 9 → acc < 2 ^ (7 * i) → acc + x * 2 ^ (7 * i) < 2 ^ 64 → x < 128 ^ (fuel + 1) →
    uvarintAux (putUvarintAux fuel x ++ pad) i (7 * i) acc
      = (acc + x * 2 ^ (7 * i), ((i : Int) + (putUvarintAux fuel x).length)) := by
  intro fuel
  induction fuel with
  | zero =>
    intro x i acc pad hi hacc hb hx
    have hx' : x < 128 := by simpa using hx
    simp only [putUvarintAux, List.cons_append, List.nil_append, List.length_cons,
      List.length_nil]
    rw [uvarintAux_last x i acc pad hi hx' hacc hb]
    congr 1
  | succ fuel ih =>
    intro x i acc pad hi hacc hb hx
    by_cases hsmall : x < 128
    · simp only [putUvarintAux, if_pos hsmall, List.cons_append, List.nil_append,
        List.length_cons, List.length_nil]
      rw [uvarintAux_last x i acc pad hi hsmall hacc hb]
      congr 1
    · simp only [putUvarintAux, if_neg hsmall, List.cons_append, List.length_cons]
      rw [byte_lor_eq]
      simp only [uvarintAux]
      rw [if_neg (show ¬(x % 128 + 128 < 0x80) by omega), byte_and_eq,
        lor_shift_add hacc]
      have hmono : x % 128 * 2 ^ (7 * i) ≤ x * 2 ^ (7 * i) :=
        Nat.mul_le_mul_right _ (Nat.mod_le _ _)
      rw [Nat.mod_eq_of_lt (by omega)]
      have hpow : (2 : Nat) ^ (7 * (i + 1)) = 2 ^ (7 * i) * 128 := by
        rw [Nat.mul_add, pow_add]
        norm_num
      have hsplit : x % 128 * 2 ^ (7 * i) + x / 128 * (2 ^ (7 * i) * 128) = x * 2 ^ (7 * i) := by
        calc x % 128 * 2 ^ (7 * i) + x / 128 * (2 ^ (7 * i) * 128)
            = (x % 128 + 128 * (x / 128)) * 2 ^ (7 * i) := by ring
          _ = x * 2 ^ (7 * i) := by rw [Nat.mod_add_div]
      have hi' : i + 1 ≤ 9 := by
        by_contra hcon
        have hi9 : i = 9 := by omega
        subst hi9
        have h63 : (2 : Nat) ^ (7 * 9) = 9223372036854775808 := by norm_num
        have h64 : (2 : Nat) ^ 64 = 18446744073709551616 := by norm_num
        have hge : 128 * 2 ^ (7 * 9) ≤ x * 2 ^ (7 * 9) :=
          Nat.mul_le_mul_right _ (by omega)
        omega
      have hacc' : x % 128 * 2 ^ (7 * i) + acc < 2 ^ (7 * (i + 1)) := by
        rw [hpow]
        calc x % 128 * 2 ^ (7 * i) + acc
            < x % 128 * 2 ^ (7 * i) + 2 ^ (7 * i) := by omega
          _ = (x % 128 + 1) * 2 ^ (7 * i) := by ring
          _ ≤ 128 * 2 ^ (7 * i) := Nat.mul_le_mul_right _ (by omega)
          _ = 2 ^ (7 * i) * 128 := by ring
      have hb' : (x % 128 * 2 ^ (7 * i) + acc) + x / 128 * 2 ^ (7 * (i + 1)) < 2 ^ 64 := by
        rw [hpow]
        omega
      have hxdiv : x / 128 < 128 ^ (fuel + 1) := by
        rw [pow_succ] at hx
        exact (Nat.div_lt_iff_lt_mul (by omega)).mpr hx
      have hrec := ih (x / 128) (i + 1) (x % 128 * 2 ^ (7 * i) + acc) pad hi' hacc' hb' hxdiv
      rw [show 7 * i + 7 = 7 * (i + 1) by ring, hrec]
      congr 1
      · rw [hpow]
        omega
      · push_cast
        ring



theorem putUvarintAux_length_pos (fuel x : Nat) : 0 < (putUvarintAux fuel x).length := by
  cases fuel with
  | zero => simp [putUvarintAux]
  | succ fuel =>
    by_cases h : x < 128 <;> simp [putUvarintAux, h]

theorem uvarint_putUvarintBytes (x : Nat) (hx : x < 2 ^ 64) (pad : List Nat) :
    uvarint (putUvarintBytes x ++ pad) = (x, ((putUvarintBytes x).length : Int)) := by
  have h128 : x < 128 ^ (MaxVarintLen64 + 1) := lt_of_lt_of_le hx (by norm_num [MaxVarintLen64])
  have h := uvarintAux_putUvarintAux MaxVarintLen64 x 0 0 pad (by omega) (by norm_num)
    (by simpa using hx) h128
  simpa [uvarint, putUvarintBytes] using h

theorem putVarintUx_lt (x : Int) : putVarintUx x < 2 ^ 64 := by
  simp only [putVarintUx]
  split <;> omega

theorem putVarintUx_of_nonneg (x : Int) (h0 : 0 ≤ x) (h2 : x < 2 ^ 63) :
    putVarintUx x = 2 * x.toNat := by
  simp only [putVarintUx, toUInt64]
  rw [if_neg (by omega)]
  have h64 : ((2 : Int) ^ 64) = 18446744073709551616 := by norm_num
  have h64n : ((2 : Nat) ^ 64) = 18446744073709551616 := by norm_num
  have h63 : ((2 : Int) ^ 63) = 9223372036854775808 := by norm_num
  rw [h64, h64n]
  omega

theorem putVarintUx_of_neg (x : Int) (h1 : -(2 ^ 63) ≤ x) (h2 : x < 0) :
    putVarintUx x = 2 * (-x).toNat - 1 := by
  simp only [putVarintUx, toUInt64]
  rw [if_pos h2]
  have h64 : ((2 : Int) ^ 64) = 18446744073709551616 := by norm_num
  have h64n : ((2 : Nat) ^ 64) = 18446744073709551616 := by norm_num
  have h63 : ((2 : Int) ^ 63) = 9223372036854775808 := by norm_num
  rw [h64, h64n]
  omega

theorem varint_putVarintBytes (x : Int) (h1 : -(2 ^ 63) ≤ x) (h2 : x < 2 ^ 63) :
    (varint (putVarintBytes x)).1 = x ∧ 0 < (varint (putVarintBytes x)).2 := by
  have hlt : putVarintUx x < 2 ^ 64 := putVarintUx_lt x
  have hbuf : putVarintBytes x = putUvarintBytes (putVarintUx x) ++
      List.replicate (MaxVarintLen64 - (putUvarintBytes (putVarintUx x)).length) 0 := rfl
  have hdec := uvarint_putUvarintBytes (putVarintUx x) hlt
    (List.replicate (MaxVarintLen64 - (putUvarintBytes (putVarintUx x)).length) 0)
  have hlen : 0 < ((putUvarintBytes (putVarintUx x)).length : Int) := by
    have := putUvarintAux_length_pos MaxVarintLen64 (putVarintUx x)
    simp only [putUvarintBytes]
    omega
  constructor
  · simp only [varint, hbuf, hdec]
    rcases lt_or_le x 0 with hneg | hpos
    · rw [putVarintUx_of_neg x h1 hneg]
      have hm : 1 ≤ (-x).toNat := by omega
      rw [if_pos (by omega)]
      omega
    · rw [putVarintUx_of_nonneg x hpos h2]
      rw [if_neg (by omega)]
      omega
  · simp only [varint, hbuf, hdec]
    simpa [putUvarintBytes] using hlen



theorem getEntry_eq (db : DB) (u g : String) :
    getEntry db u g = createBucketIfNotExists db u g := by
  simp only [getEntry, createBucketIfNotExists]
  cases db u <;> simp [Option.getD]

theorem SaveGametime_snd (now : Int) (p : PlayingUser) (db : DB) :
    (SaveGametime now p db).2 = { p with StartTime := now } := by
  simp only [SaveGametime]
  cases hb : createBucketIfNotExists db p.UserID p.GameID <;> rfl

theorem getEntry_SaveGametime_self (now : Int) (p : PlayingUser) (db : DB) :
    getEntry (SaveGametime now p db).1 p.UserID p.GameID
      = some (putVarintBytes (now + storedValue db p.UserID p.GameID - p.StartTime)) := by
  simp only [SaveGametime, storedValue, getEntry_eq]
  cases hb : createBucketIfNotExists db p.UserID p.GameID with
  | none =>
    simp [hb, createBucketIfNotExists, dbSetBucket, bucketPut]
  | some bytes =>
    simp [hb, createBucketIfNotExists, dbSetBucket, bucketPut]

theorem getEntry_put_frame (db : DB) (u0 g0 : String) (v : List Nat) (u g : String)
    (h : u ≠ u0 ∨ g ≠ g0) :
    getEntry (dbSetBucket db u0 (bucketPut (createBucketIfNotExists db u0) g0 v)) u g
      = getEntry db u g := by
  by_cases hu : u = u0
  · subst hu
    have hg : g ≠ g0 := by
      rcases h with h | h
      · exact absurd rfl h
      · exact h
    simp only [getEntry, dbSetBucket, bucketPut, createBucketIfNotExists, if_pos, hg, if_neg]
    cases db u <;> simp [Option.getD, hg]
  · simp [getEntry, dbSetBucket, hu]

theorem getEntry_SaveGametime_frame (now : Int) (p : PlayingUser) (db : DB) (u g : String)
    (h : u ≠ p.UserID ∨ g ≠ p.GameID) :
    getEntry (SaveGametime now p db).1 u g = getEntry db u g := by
  simp only [SaveGametime]
  cases hb : createBucketIfNotExists db p.UserID p.GameID <;>
    exact getEntry_put_frame db p.UserID p.GameID _ u g h

theorem mapLookup_mapInsert_self (m : List (String × PlayingUser)) (k : String)
    (v : PlayingUser) : mapLookup (mapInsert m k v) k = some v := by
  induction m with
  | nil => simp [mapInsert, mapLookup]
  | cons kv rest ih =>
    obtain ⟨k', v'⟩ := kv
    by_cases h : k' = k
    · subst h
      simp [mapInsert, mapLookup]
    · simp [mapInsert, mapLookup, h, ih]

theorem decoded_after_merge (now : Int) (p : PlayingUser) (db : DB) (v : Int)
    (hv : storedValue db p.UserID p.GameID = v)
    (h1 : -(2 ^ 63) ≤ v + (now - p.StartTime)) (h2 : v + (now - p.StartTime) < 2 ^ 63) :
    (getEntry (SaveGametime now p db).1 p.UserID p.GameID).map (fun bytes => (varint bytes).1)
      = some (v + (now - p.StartTime)) := by
  rw [getEntry_SaveGametime_self, hv]
  have harg : now + v - p.StartTime = v + (now - p.StartTime) := by ring
  rw [harg]
  simp only [Option.map_some']
  rw [(varint_putVarintBytes _ h1 h2).1]

end GoDiscord

set_option maxRecDepth 8000

namespace GoDiscord

/-- C1: the spec claims `snapshot` merges elapsed-so-far and resets the live
session's `startedAt` in place, so start, wait `d1 = 5`, snapshot, wait
`d2 = 7`, end yields `d1 + d2 = 12`.  In the code the reset lands on the Go
range-loop copy: the live session keeps `StartTime = 0`, and the final merge
adds `d1 + d2` on top of the already-merged `d1`, persisting
`d1 + d1 + d2 = 17`. -/
theorem C1_snapshot_double_counts :
    mapLookup (Snapshot 5 (StartGametime 0 "alice" "g1"
        ⟨[], fun _ => none⟩)).InProgress "alice" = some ⟨"alice", 0, "g1"⟩ ∧
    (getEntry (requestEnd 12 "alice" (Snapshot 5 (StartGametime 0 "alice" "g1"
        ⟨[], fun _ => none⟩))).GametimeDB "alice" "g1").map (fun bytes => (varint bytes).1)
      = some 17 ∧
    (getEntry (requestEnd 12 "alice" (Snapshot 5 (StartGametime 0 "alice" "g1"
        ⟨[], fun _ => none⟩))).GametimeDB "alice" "g1").map (fun bytes => (varint bytes).1)
      ≠ some (5 + 7) := by
  refine ⟨by decide, by decide, by decide⟩

/-- C2: the spec demands a decode failure be fatal for the merge; the code
ignores `binary.Varint`'s failure indicator.  On a stored value whose decode
fails (`n = 0`), the merge transaction commits without error and overwrites
the entry with elapsed + 0, silently treating the stored value as zero. -/
theorem C2_decode_error_ignored :
    (varint corruptStored).2 ≤ 0 ∧
    (updateSaveGametime ⟨none, none⟩ 7 ⟨"alice", 0, "g1"⟩ corruptDB).2 = none ∧
    (getEntry (updateSaveGametime ⟨none, none⟩ 7 ⟨"alice", 0, "g1"⟩ corruptDB).1
        "alice" "g1").map (fun bytes => (varint bytes).1) = some 7 := by
  refine ⟨by decide, by decide, by decide⟩

/-- C3: a merge of elapsed time `e = now - StartTime` into the entry for
`(UserID, GameID)` holding value `v` (0 when absent, which is what
`storedValue` denotes) leaves it holding `v + e`; the in-memory
`countPlaytime` update behaves identically.  No averaging or clamping. -/
theorem C3_merge_adds_elapsed (now : Int) (p : PlayingUser) (db : DB) (v : Int)
    (hv : storedValue db p.UserID p.GameID = v)
    (h1 : -(2 ^ 63) ≤ v + (now - p.StartTime)) (h2 : v + (now - p.StartTime) < 2 ^ 63) :
    (getEntry (SaveGametime now p db).1 p.UserID p.GameID).map (fun bytes => (varint bytes).1)
      = some (v + (now - p.StartTime)) ∧
    ∀ (endNow start : Int) (u g : String) (pt : String → String → Option Int),
      countPlaytimeUpdate endNow start u g pt u g
        = some ((pt u g).getD 0 + (endNow - start)) := by
  refine ⟨decoded_after_merge now p db v hv h1 h2, ?_⟩
  intro endNow start u g pt
  cases hpt : pt u g with
  | none => simp [countPlaytimeUpdate, hpt]
  | some played =>
    simp only [countPlaytimeUpdate, hpt, Option.getD_some]
    simp only [and_self, if_true, eq_self_iff_true]
    congr 1
    ring

theorem C3_merge_adds_elapsed_witness :
    (getEntry (SaveGametime 10 ⟨"alice", 3, "g1"⟩
        (dbSetBucket (fun _ => none) "alice"
          (bucketPut (fun _ => none) "g1" (putVarintBytes 100)))).1
        "alice" "g1").map (fun bytes => (varint bytes).1) = some 107 :=
  (C3_merge_adds_elapsed 10 ⟨"alice", 3, "g1"⟩
    (dbSetBucket (fun _ => none) "alice"
      (bucketPut (fun _ => none) "g1" (putVarintBytes 100))) 100
    (by decide) (by decide) (by decide)).1

/-- C4: querying an identity with no namespace yields the explicit
"user never played" error, not an empty mapping and not a crash; with a
namespace, the result maps each stored game to its decoded nanosecond
count — one entry per stored pair. -/
theorem C4_query_no_history (db : DB) (u : String) :
    (db u = none → GetUserGametime db u = .error "user never played") ∧
    ∀ b, db u = some b →
      GetUserGametime db u = .ok (fun g => (b g).map (fun bytes => (varint bytes).1)) := by
  constructor
  · intro h
    simp [GetUserGametime, h]
  · intro b h
    simp [GetUserGametime, h]

theorem C4_query_no_history_witness :
    GetUserGametime (fun _ => none) "bob" = .error "user never played" ∧
    GetUserGametime (dbSetBucket (fun _ => none) "alice"
        (bucketPut (fun _ => none) "g1" (putVarintBytes 5))) "alice"
      = .ok (fun g => ((bucketPut (fun _ => none) "g1" (putVarintBytes 5)) g).map
          (fun bytes => (varint bytes).1)) :=
  ⟨(C4_query_no_history (fun _ => none) "bob").1 rfl,
   (C4_query_no_history (dbSetBucket (fun _ => none) "alice"
      (bucketPut (fun _ => none) "g1" (putVarintBytes 5))) "alice").2 _ rfl⟩

/-- C5: starting a session for a user that already has a live one silently
replaces it with a fresh session whose `StartTime` is the current instant;
the database is untouched (no merge of the interrupted session) and no
error is possible (`StartGametime` is total). -/
theorem C5_double_start_discards (now : Int) (uid gid : String) (c : TimeCounter)
    (pOld : PlayingUser) (h : mapLookup c.InProgress uid = some pOld) :
    mapLookup (StartGametime now uid gid c).InProgress uid = some ⟨uid, now, gid⟩ ∧
    (StartGametime now uid gid c).GametimeDB = c.GametimeDB :=
  ⟨mapLookup_mapInsert_self _ _ _, rfl⟩

theorem C5_double_start_discards_witness :
    mapLookup (StartGametime 50 "alice" "g2"
        ⟨[("alice", ⟨"alice", 0, "g1"⟩)], fun _ => none⟩).InProgress "alice"
      = some ⟨"alice", 50, "g2"⟩ ∧
    (StartGametime 50 "alice" "g2"
        ⟨[("alice", ⟨"alice", 0, "g1"⟩)], fun _ => none⟩).GametimeDB
      = (⟨[("alice", ⟨"alice", 0, "g1"⟩)], fun _ => none⟩ : TimeCounter).GametimeDB :=
  C5_double_start_discards 50 "alice" "g2"
    ⟨[("alice", ⟨"alice", 0, "g1"⟩)], fun _ => none⟩ ⟨"alice", 0, "g1"⟩ (by decide)

/-- C6, counterexample: the claim "if any step of the merge (namespace
creation, decode, write) fails, the transaction aborts, the error is
returned and the store is unchanged" is false: a decode failure neither
aborts nor surfaces an error — the merge commits a fresh value. -/
theorem C6_atomicity_counterexample :
    ¬ ∀ (f : TxFaults) (now : Int) (p : PlayingUser) (db : DB),
        mergeStepFails f p db →
        (updateSaveGametime f now p db).1 = db ∧
        (updateSaveGametime f now p db).2 ≠ none := by
  intro hclaim
  have h := hclaim ⟨none, none⟩ 7 ⟨"alice", 0, "g1"⟩ corruptDB
    (Or.inr (Or.inr ⟨corruptStored, by decide, by decide⟩))
  exact h.2 (by decide)

/-- C6, amended: if namespace creation or the value write fails, the
transaction aborts, the error is returned to the invoker, and the store is
left exactly as before — no partial write is visible.  (A decode failure,
by contrast, does not fail the merge: see C2.) -/
theorem C6_amended_atomicity (f : TxFaults) (now : Int) (p : PlayingUser) (db : DB)
    (h : f.createBucketErr ≠ none ∨ f.putErr ≠ none) :
    (updateSaveGametime f now p db).1 = db ∧
    (updateSaveGametime f now p db).2 ≠ none := by
  obtain ⟨ce, pe⟩ := f
  cases ce with
  | some e =>
    constructor
    · rfl
    · simp [updateSaveGametime, SaveGametimeTx]
  | none =>
    cases pe with
    | none => simp at h
    | some e =>
      cases hb : createBucketIfNotExists db p.UserID p.GameID with
      | none =>
        constructor
        · simp [updateSaveGametime, SaveGametimeTx, hb]
        · simp [updateSaveGametime, SaveGametimeTx, hb]
      | some bytes =>
        constructor
        · simp [updateSaveGametime, SaveGametimeTx, hb]
        · simp [updateSaveGametime, SaveGametimeTx, hb]

theorem C6_amended_atomicity_witness :
    (updateSaveGametime ⟨none, some "disk full"⟩ 3 ⟨"alice", 0, "g1"⟩ corruptDB).1
      = corruptDB ∧
    (updateSaveGametime ⟨none, some "disk full"⟩ 3 ⟨"alice", 0, "g1"⟩ corruptDB).2
      ≠ none :=
  C6_amended_atomicity ⟨none, some "disk full"⟩ 3 ⟨"alice", 0, "g1"⟩ corruptDB
    (Or.inr (by decide))

/-- C7: the value encoding round-trips exactly for every 64-bit signed
integer: decoding (`binary.Varint`, as both the merge and the query path
do) the stored buffer written by the merge path (`binary.PutVarint` into a
zero-filled `MaxVarintLen64`-byte buffer) yields the value back with a
positive byte count, and the query path returns it. -/
theorem C7_varint_roundtrip (n : Int) (h1 : -(2 ^ 63) ≤ n) (h2 : n < 2 ^ 63) :
    (varint (putVarintBytes n)).1 = n ∧ 0 < (varint (putVarintBytes n)).2 ∧
    ∀ u g : String,
      GetUserGametime (dbSetBucket (fun _ => none) u
          (bucketPut (fun _ => none) g (putVarintBytes n))) u
        = .ok (fun g' => if g' = g then some n else none) := by
  obtain ⟨hv, hn⟩ := varint_putVarintBytes n h1 h2
  refine ⟨hv, hn, ?_⟩
  intro u g
  simp only [GetUserGametime, dbSetBucket, bucketPut, if_pos]
  refine congrArg Except.ok (funext fun g' => ?_)
  by_cases hg : g' = g
  · simp [hg, hv]
  · simp [hg]

theorem C7_varint_roundtrip_witness :
    (varint (putVarintBytes (-123456789))).1 = -123456789 ∧
    0 < (varint (putVarintBytes (-123456789))).2 :=
  ⟨(C7_varint_roundtrip (-123456789) (by decide) (by decide)).1,
   (C7_varint_roundtrip (-123456789) (by decide) (by decide)).2.1⟩

/-- C8: with a correctly-encoded prior value and a monotonic clock
(`StartTime ≤ now`), a merge leaves the stored value no smaller than
before, and no merge ever deletes an entry. -/
theorem C8_monotone_no_delete (now : Int) (p : PlayingUser) (db : DB) (v : Int)
    (hstored : getEntry db p.UserID p.GameID = some (putVarintBytes v))
    (hv : -(2 ^ 63) ≤ v) (hmono : p.StartTime ≤ now)
    (hrange : v + (now - p.StartTime) < 2 ^ 63) :
    (getEntry (SaveGametime now p db).1 p.UserID p.GameID).map (fun bytes => (varint bytes).1)
      = some (v + (now - p.StartTime)) ∧
    v ≤ v + (now - p.StartTime) ∧
    ∀ u g : String, (getEntry db u g).isSome → (getEntry (SaveGametime now p db).1 u g).isSome := by
  have hv2 : v < 2 ^ 63 := by omega
  have hsv : storedValue db p.UserID p.GameID = v := by
    simp only [storedValue, hstored]
    exact (varint_putVarintBytes v hv hv2).1
  refine ⟨decoded_after_merge now p db v hsv (by omega) hrange, by omega, ?_⟩
  intro u g hsome
  by_cases hu : u = p.UserID
  · by_cases hg : g = p.GameID
    · subst hu
      subst hg
      rw [getEntry_SaveGametime_self]
      rfl
    · rw [getEntry_SaveGametime_frame now p db u g (Or.inr hg)]
      exact hsome
  · rw [getEntry_SaveGametime_frame now p db u g (Or.inl hu)]
    exact hsome

theorem C8_monotone_no_delete_witness :
    (getEntry (SaveGametime 10 ⟨"alice", 3, "g1"⟩
        (dbSetBucket (fun _ => none) "alice"
          (bucketPut (fun _ => none) "g1" (putVarintBytes 100)))).1
        "alice" "g1").map (fun bytes => (varint bytes).1) = some 107 ∧
    (100 : Int) ≤ 107 := by
  have h := C8_monotone_no_delete 10 ⟨"alice", 3, "g1"⟩
    (dbSetBucket (fun _ => none) "alice"
      (bucketPut (fun _ => none) "g1" (putVarintBytes 100))) 100
    (by decide) (by decide) (by decide) (by decide)
  exact ⟨h.1, h.2.1⟩

/-- C9: a merge for `(UserID, GameID)` changes at most that one entry:
every entry of any other user, and every other game of the same user, is
untouched, both at the `SaveGametime` level and through `EndGametime`. -/
theorem C9_merge_frame (now : Int) (p : PlayingUser) (db : DB) (u g : String)
    (h : u ≠ p.UserID ∨ g ≠ p.GameID) :
    getEntry (SaveGametime now p db).1 u g = getEntry db u g ∧
    ∀ c : TimeCounter, c.GametimeDB = db →
      getEntry (EndGametime now p c).GametimeDB u g = getEntry db u g := by
  refine ⟨getEntry_SaveGametime_frame now p db u g h, ?_⟩
  intro c hc
  show getEntry (SaveGametime now p c.GametimeDB).1 u g = getEntry db u g
  rw [hc]
  exact getEntry_SaveGametime_frame now p db u g h

theorem C9_merge_frame_witness :
    getEntry (SaveGametime 10 ⟨"alice", 3, "g1"⟩ corruptDB).1 "bob" "g1"
      = getEntry corruptDB "bob" "g1" :=
  (C9_merge_frame 10 ⟨"alice", 3, "g1"⟩ corruptDB "bob" "g1" (Or.inl (by decide))).1

/-- C10: the merge's two branches agree up to the initial total: on a store
whose entry decodes to 0 and on a store with no entry, the code writes the
same bytes (the encoding of `now - StartTime`) and performs the same
start-time reset; the two branches of `countPlaytime` agree likewise. -/
theorem C10_branches_agree (now : Int) (p : PlayingUser) (db1 db2 : DB) (bytes0 : List Nat)
    (h1 : getEntry db1 p.UserID p.GameID = some bytes0)
    (h0 : (varint bytes0).1 = 0)
    (h2 : getEntry db2 p.UserID p.GameID = none) :
    getEntry (SaveGametime now p db1).1 p.UserID p.GameID
      = getEntry (SaveGametime now p db2).1 p.UserID p.GameID ∧
    getEntry (SaveGametime now p db1).1 p.UserID p.GameID
      = some (putVarintBytes (now - p.StartTime)) ∧
    (SaveGametime now p db1).2 = (SaveGametime now p db2).2 ∧
    ∀ (endNow start : Int) (u g : String) (pt1 pt2 : String → String → Option Int),
      pt1 u g = some 0 → pt2 u g = none →
      countPlaytimeUpdate endNow start u g pt1 u g
        = countPlaytimeUpdate endNow start u g pt2 u g := by
  have hs1 : storedValue db1 p.UserID p.GameID = 0 := by
    simp [storedValue, h1, h0]
  have hs2 : storedValue db2 p.UserID p.GameID = 0 := by
    simp [storedValue, h2]
  have e1 := getEntry_SaveGametime_self now p db1
  have e2 := getEntry_SaveGametime_self now p db2
  rw [hs1] at e1
  rw [hs2] at e2
  have harg : now + 0 - p.StartTime = now - p.StartTime := by ring
  rw [harg] at e1 e2
  refine ⟨e1.trans e2.symm, e1, ?_, ?_⟩
  · rw [SaveGametime_snd, SaveGametime_snd]
  · intro endNow start u g pt1 pt2 hpt1 hpt2
    simp only [countPlaytimeUpdate, hpt1, hpt2]
    simp only [and_self, if_true, eq_self_iff_true]
    congr 1
    ring

theorem C10_branches_agree_witness :
    getEntry (SaveGametime 10 ⟨"alice", 3, "g1"⟩
        (dbSetBucket (fun _ => none) "alice"
          (bucketPut (fun _ => none) "g1" (putVarintBytes 0)))).1 "alice" "g1"
      = getEntry (SaveGametime 10 ⟨"alice", 3, "g1"⟩ (fun _ => none)).1 "alice" "g1" :=
  (C10_branches_agree 10 ⟨"alice", 3, "g1"⟩
    (dbSetBucket (fun _ => none) "alice"
      (bucketPut (fun _ => none) "g1" (putVarintBytes 0)))
    (fun _ => none) (putVarintBytes 0) (by decide) (by decide) (by decide)).1

end GoDiscord
